import Mathlib

/-!
# Verification of the 3pinflow scheduling and CSV-export core

Shallow embedding of `src/utils/scheduling.ts` (`scheduleCampaign`) and
`src/public/utils/csv` (`validateRow`, `generateCSVString`), with proofs of
the specification claims about them.

Machine numbers of the source (JS numbers used as integers) are modelled as
`Int`/`Nat`; calendar arithmetic of the JS `Date` object is modelled for
well-formed `"YYYY-MM-DD"` start dates by explicit Gregorian arithmetic
(the JS `Invalid Date`/`NaN` propagation for malformed strings is out of
scope); fallible code (`throw`) is modelled with explicit result types.
-/

/-! ## Data model (`src/types.ts`) -/

/-- `UrlAnalysis` of `src/types.ts` (string-typed union fields become `String`). -/
structure UrlAnalysis where
  topic : String
  coreContent : String
  primaryKeyword : String
  secondaryKeywords : List String
  searchIntent : String
  mainBenefits : List String
  targetAudience : String
  visualAngleOpportunities : String
deriving Repr, DecidableEq

/-- `PinVariation.strategy` of `src/types.ts`. -/
structure PinStrategy where
  seoAngle : String
  emotionalTrigger : String
  headlineStyle : String
  visualStyle : String
  targetUserLevel : String
  intentType : String
deriving Repr, DecidableEq

/-- `PinVariation.visualStrategy.compositionParams` of `src/types.ts`. -/
structure CompositionParams where
  cameraAngle : String
  distance : String
  lighting : String
deriving Repr, DecidableEq

/-- `PinVariation.visualStrategy` of `src/types.ts`. -/
structure VisualStrategy where
  styleType : String
  compositionParams : CompositionParams
  textOverlay : String
  supportingText : Option String
  imagePrompt : String
  colorPalette : List String
deriving Repr, DecidableEq

/-- `PinVariation.performanceIntelligence` of `src/types.ts`. -/
structure PerformanceIntelligence where
  viralHook : String
  ctrBooster : String
  distributionVelocity : String
deriving Repr, DecidableEq

/-- `PinVariation.experimentationLayer` of `src/types.ts`. -/
structure ExperimentationLayer where
  hypothesis : String
  testMetric : String
  winnerAction : String
deriving Repr, DecidableEq

/-- `PinVariation.authorityLayer` of `src/types.ts`. -/
structure AuthorityLayer where
  nicheDominance : String
  trustSignal : String
  stabilityStrategy : String
deriving Repr, DecidableEq

/-- `PinVariation` of `src/types.ts`; optional fields become `Option`. -/
structure PinVariation where
  title : String
  description : String
  altText : String
  suggestedBoards : List String
  keywords : List String
  strategy : PinStrategy
  visualStrategy : VisualStrategy
  performanceIntelligence : PerformanceIntelligence
  experimentationLayer : ExperimentationLayer
  authorityLayer : AuthorityLayer
  scheduledDate : Option String
  generatedImageUrl : Option String
  publicMediaUrl : Option String
deriving Repr, DecidableEq

/-- `CampaignResult` of `src/types.ts`. -/
structure CampaignResult where
  sourceUrl : String
  analysis : UrlAnalysis
  variations : List PinVariation
deriving Repr, DecidableEq

/-- `AppSettings` of `src/types.ts`; `pinsPerDay` is a JS number that may be
zero or negative, modelled as `Int`. -/
structure AppSettings where
  pinsPerDay : Int
  startDate : String
  variationsPerUrl : Int
deriving Repr, DecidableEq

/-! ## Calendar arithmetic (model of the JS `Date` usage in `scheduleCampaign`) -/

/-- A civil calendar date, as read back from a JS `Date` via
`getFullYear`/`getMonth() + 1`/`getDate`. -/
structure CalDate where
  year : Nat
  month : Nat
  day : Nat
deriving Repr, DecidableEq

/-- Gregorian leap-year rule (what JS `Date` day rollover implements). -/
def isLeapYear (y : Nat) : Bool :=
  (y % 4 == 0 && y % 100 != 0) || y % 400 == 0

/-- Days in a Gregorian month. -/
def daysInMonth (y m : Nat) : Nat :=
  if m = 2 then (if isLeapYear y then 29 else 28)
  else if m = 4 ∨ m = 6 ∨ m = 9 ∨ m = 11 then 30
  else 31

/-- The calendar day after `d` (JS `Date` day-overflow normalization). -/
def nextDay (d : CalDate) : CalDate :=
  if d.day < daysInMonth d.year d.month then ⟨d.year, d.month, d.day + 1⟩
  else if d.month < 12 then ⟨d.year, d.month + 1, 1⟩
  else ⟨d.year + 1, 1, 1⟩

/-- `date.setDate(start.getDate() + dayOffset)`: add `n` days with JS `Date`
month/year rollover. -/
def addDays : CalDate → Nat → CalDate
  | d, 0 => d
  | d, n + 1 => addDays (nextDay d) n

/-! String primitives, implemented structurally over `List Char` so that every
definition evaluates inside the kernel. Each models the JS string operation
named in its comment. -/

/-- Is `pre` a leading run of `cs`? (JS `startsWith` on character lists.) -/
def isPrefixCh : List Char → List Char → Bool
  | [], _ => true
  | _ :: _, [] => false
  | a :: as, b :: bs => a == b && isPrefixCh as bs

/-- JS `s.startsWith(pre)`. -/
def strStartsWith (s pre : String) : Bool :=
  isPrefixCh pre.data s.data

/-- Split a character list on a separator character. -/
def splitOnChar (sep : Char) : List Char → List (List Char)
  | [] => [[]]
  | c :: rest =>
    match splitOnChar sep rest with
    | [] => [[c]]
    | g :: gs => if c == sep then [] :: g :: gs else (c :: g) :: gs

/-- Parse a digit run as a number, accumulator style. -/
def toNatChAux : List Char → Nat → Option Nat
  | [], acc => some acc
  | c :: cs, acc =>
    if c.isDigit then toNatChAux cs (acc * 10 + (c.toNat - '0'.toNat)) else none

/-- JS `Number(s)` restricted to nonempty digit strings. -/
def strToNat? (s : String) : Option Nat :=
  match s.data with
  | [] => none
  | cs => toNatChAux cs 0

/-- Replace every occurrence of the character `pat` by `rep`
(JS `replace(/pat/g, rep)` for a one-character pattern). -/
def replaceChar (pat : Char) (rep : List Char) : List Char → List Char
  | [] => []
  | c :: cs => if c == pat then rep ++ replaceChar pat rep cs else c :: replaceChar pat rep cs

/-- JS `s.substring(0, n)`. -/
def strTake (s : String) (n : Nat) : String :=
  String.mk (s.data.take n)

/-- JS `array.join(sep)`. -/
def joinWith (sep : String) : List String → String
  | [] => ""
  | [x] => x
  | x :: xs => x ++ sep ++ joinWith sep xs

/-- `new Date(startDate)` for a well-formed `"YYYY-MM-DD"` string, read back
as a civil date. Malformed strings (JS `Invalid Date`, `NaN` components) are
out of the model and fall back to the epoch date. -/
def parseStartDate (s : String) : CalDate :=
  match (splitOnChar '-' s.data).map (fun cs => strToNat? (String.mk cs)) with
  | [some y, some m, some d] => ⟨y, m, d⟩
  | _ => ⟨1970, 1, 1⟩

/-- `String(n).padStart(2, '0')` for a nonnegative number. -/
def pad2 (n : Nat) : String :=
  if n < 10 then "0" ++ toString n else toString n

/-! ## Scheduler (`src/utils/scheduling.ts`) -/

/-- One entry of the scheduler's `flattenedPins` array. -/
structure FlatPin where
  url : String
  variation : PinVariation
  uIdx : Nat
  vIdx : Nat
deriving Repr, DecidableEq

/-- One entry of the scheduler's `scheduledFlat` array
(`{ ...item, dateStr }`). -/
structure ScheduledPin where
  url : String
  variation : PinVariation
  uIdx : Nat
  vIdx : Nat
  dateStr : String
deriving Repr, DecidableEq

/-- `Math.max(1, rawPinsPerDay || 3)`: the effective `pinsPerDay`. In JS the
only falsy integer is `0` (made `3`); negative values survive `||` and are
clamped to `1` by `Math.max`. -/
def effectivePinsPerDay (raw : Int) : Nat :=
  (max 1 (if raw = 0 then 3 else raw)).toNat

/-- `hour = 9 + Math.floor((pinIndexInDay * 12) / pinsPerDay)`. -/
def slotHour (pinsPerDay slot : Nat) : Nat :=
  9 + slot * 12 / pinsPerDay

/-- `minute = (pinIndexInDay * 17) % 60` (the deterministic minute jitter). -/
def slotMinute (slot : Nat) : Nat :=
  slot * 17 % 60

/-- The `dateStr` computed for the flattened pin at position `index`:
day offset `index / pinsPerDay`, time slot `index % pinsPerDay`, formatted
`YYYY-MM-DD HH:MM` with two-digit padding (year unpadded, as in the source). -/
def dateStrFor (pinsPerDay : Nat) (start : CalDate) (index : Nat) : String :=
  let dayOffset := index / pinsPerDay
  let date := addDays start dayOffset
  let hour := slotHour pinsPerDay (index % pinsPerDay)
  let minute := slotMinute (index % pinsPerDay)
  toString date.year ++ "-" ++ pad2 date.month ++ "-" ++ pad2 date.day ++ " " ++
    pad2 hour ++ ":" ++ pad2 minute

/-- Inner `forEach` of the flattening pass: push one `FlatPin` per variation,
carrying the source index `uIdx` and the running variation index `vIdx`. -/
def flattenVarsAux (url : String) : List PinVariation → Nat → Nat → List FlatPin
  | [], _, _ => []
  | v :: vs, uIdx, vIdx => ⟨url, v, uIdx, vIdx⟩ :: flattenVarsAux url vs uIdx (vIdx + 1)

/-- Outer `forEach` of the flattening pass over `results`, with the running
source index `uIdx`. -/
def flattenPinsAux : List CampaignResult → Nat → List FlatPin
  | [], _ => []
  | r :: rest, uIdx =>
      flattenVarsAux r.sourceUrl r.variations uIdx 0 ++ flattenPinsAux rest (uIdx + 1)

/-- `flattenedPins.map((item, index) => ({ ...item, dateStr }))`: attach the
position-determined `dateStr` to every flattened pin. -/
def schedFlatAux (pinsPerDay : Nat) (start : CalDate) :
    List FlatPin → Nat → List ScheduledPin
  | [], _ => []
  | item :: rest, index =>
      ⟨item.url, item.variation, item.uIdx, item.vIdx, dateStrFor pinsPerDay start index⟩ ::
        schedFlatAux pinsPerDay start rest (index + 1)

/-- `scheduledFlat.find(s => s.uIdx === uIdx && s.vIdx === vIdx)` followed by
`scheduled ? scheduled.dateStr : ''`. -/
def lookupDate (scheduledFlat : List ScheduledPin) (uIdx vIdx : Nat) : String :=
  match scheduledFlat.find? (fun s => s.uIdx == uIdx && s.vIdx == vIdx) with
  | some s => s.dateStr
  | none => ""

/-- Inner `map` of the re-assembly: each variation gets
`scheduledDate: scheduled ? scheduled.dateStr : ''` (always a string, so
`some _` in the model). -/
def reassembleVarsAux (scheduledFlat : List ScheduledPin) (uIdx : Nat) :
    List PinVariation → Nat → List PinVariation
  | [], _ => []
  | v :: vs, vIdx =>
      { v with scheduledDate := some (lookupDate scheduledFlat uIdx vIdx) } ::
        reassembleVarsAux scheduledFlat uIdx vs (vIdx + 1)

/-- Outer `map` of the re-assembly over `results`. -/
def reassembleAux (scheduledFlat : List ScheduledPin) :
    List CampaignResult → Nat → List CampaignResult
  | [], _ => []
  | r :: rest, uIdx =>
      { r with variations := reassembleVarsAux scheduledFlat uIdx r.variations 0 } ::
        reassembleAux scheduledFlat rest (uIdx + 1)

/-- `scheduleCampaign` of `src/utils/scheduling.ts`: flatten, assign each
flattened pin a date string by position, re-assemble by `(uIdx, vIdx)` lookup. -/
def scheduleCampaign (results : List CampaignResult) (settings : AppSettings) :
    List CampaignResult :=
  let pinsPerDay := effectivePinsPerDay settings.pinsPerDay
  let start := parseStartDate settings.startDate
  let scheduledFlat := schedFlatAux pinsPerDay start (flattenPinsAux results 0) 0
  reassembleAux scheduledFlat results 0

/-! Sample data used by concrete witnesses and counterexamples. -/

/-- A concrete `UrlAnalysis` value for test inputs. -/
def sampleAnalysis : UrlAnalysis :=
  ⟨"topic", "content", "kw", ["kw2"], "learn", ["b"], "aud", "vis"⟩

/-- A concrete `PinVariation` with the given title, boards, keywords,
description and public media URL; all remaining fields fixed. -/
def mkVar (title : String) (boards : List String) (keywords : List String)
    (description : String) (pub : Option String) : PinVariation :=
  { title := title
    description := description
    altText := "alt"
    suggestedBoards := boards
    keywords := keywords
    strategy := ⟨"seo", "emo", "head", "vis", "All", "Informational"⟩
    visualStrategy :=
      ⟨"Lifestyle", ⟨"front", "Medium", "Warm"⟩, "overlay", none, "prompt", ["#fff"]⟩
    performanceIntelligence := ⟨"hook", "ctr", "fast"⟩
    experimentationLayer := ⟨"hyp", "metric", "act"⟩
    authorityLayer := ⟨"niche", "trust", "stable"⟩
    scheduledDate := none
    generatedImageUrl := some "data:image/png;base64,PREVIEW"
    publicMediaUrl := pub }

/-! ## CSV export (`src/public/utils/csv`) -/

/-- JS `s.includes(pat)`: substring containment. -/
def containsSubstr (s pat : String) : Bool :=
  decide (pat.toList <:+: s.toList)

/-- JS `cell.replace(/^"|"$/g, '')`: strip one leading and one trailing
double quote, if present. -/
def stripQuotes (s : String) : String :=
  let s1 := match s.data with
    | '"' :: rest => rest
    | cs => cs
  if s1.getLast? == some '"' then String.mk s1.dropLast else String.mk s1

/-- JS `text.replace(/"/g, '""')`: double every internal quote. -/
def escQuotes (s : String) : String :=
  String.mk (replaceChar '"' ['"', '"'] s.data)

/-- `"Row ${idx}: " ++ body`: the shape of every `validateRow` error message. -/
def rowMsg (idx : Nat) (body : String) : String :=
  "Row " ++ toString idx ++ ": " ++ body

/-- The body of the `validateRow` Media URL error for the stripped cell `m`. -/
def mediaMsgBody (m : String) : String :=
  "Media URL is not a public HTTPS link. Current: " ++ strTake m 30 ++ "..."

/-- Array destructuring `const [a, b, ...] = row`: a missing position is
`undefined`, which every check of `validateRow` treats exactly like the empty
string (each is guarded by a falsiness test before any method call), and
positions past the seventh are ignored. -/
def getCell (cells : List String) (i : Nat) : String :=
  cells.getD i ""

/-- `validateRow` on the already-stripped cells (the source destructures
`row.map(cell => cell.replace(/^"|"$/g, ''))` first). -/
def validateCells (cells : List String) (idx : Nat) : Except String Unit :=
  let title := getCell cells 0
  let mediaUrl := getCell cells 1
  let board := getCell cells 2
  let description := getCell cells 3
  let link := getCell cells 4
  let date := getCell cells 5
  let keywords := getCell cells 6
  if title == "" then .error (rowMsg idx "Title empty.")
  else if mediaUrl == "" || !strStartsWith mediaUrl "https://" ||
      containsSubstr mediaUrl "data:image" || containsSubstr mediaUrl "blob:" then
    .error (rowMsg idx (mediaMsgBody mediaUrl))
  else if board == "" then .error (rowMsg idx "Board empty.")
  else if description == "" then .error (rowMsg idx "Description empty.")
  else if link == "" || !strStartsWith link "https://" then
    .error (rowMsg idx "Link empty or not HTTPS.")
  else if date == "" then .error (rowMsg idx "Date empty.")
  else if keywords == "" then .error (rowMsg idx "Keywords empty.")
  else .ok ()

/-- `validateRow` of `src/public/utils/csv`. -/
def validateRow (row : List String) (idx : Nat) : Except String Unit :=
  validateCells (row.map stripQuotes) idx

/-- What `generateCSVString` can do besides returning a string: throw an
`Error` with a message, or crash with a `TypeError`
(`variation.suggestedBoards[0]` undefined on an empty board list). -/
inductive CsvErr where
  | thrown (msg : String)
  | typeError
deriving Repr, DecidableEq

/-- Result of `generateCSVString` as observed by a caller. -/
inductive CsvResult where
  | ok (csv : String)
  | err (msg : String)
  | crash
deriving Repr, DecidableEq

/-- The `Cloud Sync Missing` error message for a variation title. -/
def cloudSyncMsg (title : String) : String :=
  "Cloud Sync Missing: Variation \"" ++ title ++ "\" has no public HTTPS URL. Export blocked."

/-- One row of the `data.flatMap(...)` projection: the `publicMediaUrl` gate
runs first; then the seven quoted cells are built, reading
`variation.suggestedBoards[0]` (a `TypeError` on an empty list). Only Title,
Board, Description and Keywords pass through `.replace(/"/g, '""')`. -/
def projectRow (sourceUrl : String) (variation : PinVariation) :
    Except CsvErr (List String) :=
  match variation.publicMediaUrl with
  | none => .error (.thrown (cloudSyncMsg variation.title))
  | some mediaUrl =>
    if !strStartsWith mediaUrl "https://" then
      .error (.thrown (cloudSyncMsg variation.title))
    else
      match variation.suggestedBoards with
      | [] => .error .typeError
      | board :: _ =>
        .ok ["\"" ++ escQuotes variation.title ++ "\"",
             "\"" ++ mediaUrl ++ "\"",
             "\"" ++ escQuotes board ++ "\"",
             "\"" ++ escQuotes variation.description ++ "\"",
             "\"" ++ sourceUrl ++ "\"",
             "\"" ++ variation.scheduledDate.getD "" ++ "\"",
             "\"" ++ escQuotes (joinWith ", " variation.keywords) ++ "\""]

/-- The inner `variations.map` of the row projection, with JS throw
semantics (first failure wins). -/
def projectVariations (sourceUrl : String) :
    List PinVariation → Except CsvErr (List (List String))
  | [] => .ok []
  | v :: vs =>
    match projectRow sourceUrl v with
    | .error e => .error e
    | .ok row =>
      match projectVariations sourceUrl vs with
      | .error e => .error e
      | .ok rest => .ok (row :: rest)

/-- `data.flatMap(urlResult => urlResult.variations.map(...))` with JS throw
semantics. -/
def buildRows : List CampaignResult → Except CsvErr (List (List String))
  | [] => .ok []
  | r :: rest =>
    match projectVariations r.sourceUrl r.variations with
    | .error e => .error e
    | .ok rows =>
      match buildRows rest with
      | .error e => .error e
      | .ok more => .ok (rows ++ more)

/-- `rows.forEach((row, idx) => validateRow(row, idx + 1))` with JS throw
semantics; `idx` is the 1-based index of the head row. -/
def validateRowsAux : List (List String) → Nat → Except String Unit
  | [], _ => .ok ()
  | row :: rest, idx =>
    match validateRow row idx with
    | .error e => .error e
    | .ok _ => validateRowsAux rest (idx + 1)

/-- The CSV header cells. -/
def csvHeaders : List String :=
  ["Title", "Media URL", "Pinterest board", "Description", "Link", "Publish date", "Keywords"]

/-- The `Batch Integrity Failure` message for an expected and a found count. -/
def batchMsg (expected found : Nat) : String :=
  "Batch Integrity Failure: Expected " ++ toString expected ++ " rows, found " ++
    toString found ++ "."

/-- `generateCSVString` of `src/public/utils/csv`: project all rows (throwing
on the first gate failure or crashing on an absent board), check the batch
row count, deep-validate every row, then serialize header and rows. -/
def generateCSVString (data : List CampaignResult) : CsvResult :=
  match buildRows data with
  | .error (.thrown msg) => .err msg
  | .error .typeError => .crash
  | .ok rows =>
    if rows.length ≠ data.length * 3 then
      .err (batchMsg (data.length * 3) rows.length)
    else
      match validateRowsAux rows 1 with
      | .error msg => .err msg
      | .ok _ =>
        .ok (joinWith "\n" (joinWith "," csvHeaders :: rows.map (joinWith ",")))

/-- All variations of a campaign list, in row order. -/
def allVars (data : List CampaignResult) : List PinVariation :=
  data.flatMap (fun r => r.variations)

/-- Whether a variation passes the `publicMediaUrl` export gate. -/
def hasPublicHttps (v : PinVariation) : Bool :=
  match v.publicMediaUrl with
  | some m => strStartsWith m "https://"
  | none => false


/-! ## Claim C1: the concrete three-variation scenario -/

/-- **C1.** For one `CampaignResult` with exactly three variations,
`itemsPerDay = 3` and `startDate = "2024-01-01"`, `scheduleCampaign` assigns
the three variations, in order, the scheduled dates `"2024-01-01 09:00"`,
`"2024-01-01 13:17"` and `"2024-01-01 17:34"` — all on the start date with
hours `9, 13, 17` and minutes `0, 17, 34`, per
`hour = 9 + floor(slot * 12 / itemsPerDay)` and `minute = slot * 17 mod 60`,
zero-padded `YYYY-MM-DD HH:MM`. -/
theorem claim_C1 (url : String) (analysis : UrlAnalysis) (v1 v2 v3 : PinVariation)
    (n : Int) :
    (scheduleCampaign [⟨url, analysis, [v1, v2, v3]⟩] ⟨3, "2024-01-01", n⟩).map
        (fun r => r.variations.map (fun v => v.scheduledDate)) =
      [[some "2024-01-01 09:00", some "2024-01-01 13:17", some "2024-01-01 17:34"]] := by
  show (reassembleAux (schedFlatAux (effectivePinsPerDay 3) (parseStartDate "2024-01-01")
      (flattenPinsAux [⟨url, analysis, [v1, v2, v3]⟩] 0) 0) [⟨url, analysis, [v1, v2, v3]⟩] 0).map
      (fun r => r.variations.map (fun v => v.scheduledDate)) =
    [[some "2024-01-01 09:00", some "2024-01-01 13:17", some "2024-01-01 17:34"]]
  rfl

/-! ## Scheduler lemmas: frame, congruence, idempotence -/

/-- Erase the only field the scheduler writes. -/
def stripV (v : PinVariation) : PinVariation :=
  { v with scheduledDate := none }

/-- Erase every `scheduledDate` of a campaign result. -/
def stripR (r : CampaignResult) : CampaignResult :=
  { r with variations := r.variations.map stripV }

theorem reassembleVarsAux_map_stripV (sf : List ScheduledPin) (u : Nat) :
    ∀ (vs : List PinVariation) (vi : Nat),
      (reassembleVarsAux sf u vs vi).map stripV = vs.map stripV := by
  intro vs
  induction vs with
  | nil => intro vi; rfl
  | cons v rest ih =>
    intro vi
    simp [reassembleVarsAux, stripV, ih]

theorem reassembleAux_map_stripR (sf : List ScheduledPin) :
    ∀ (rs : List CampaignResult) (u : Nat),
      (reassembleAux sf rs u).map stripR = rs.map stripR := by
  intro rs
  induction rs with
  | nil => intro u; rfl
  | cons r rest ih =>
    intro u
    simp [reassembleAux, stripR, reassembleVarsAux_map_stripV, ih]

theorem scheduleCampaign_map_stripR (rs : List CampaignResult) (s : AppSettings) :
    (scheduleCampaign rs s).map stripR = rs.map stripR := by
  unfold scheduleCampaign
  exact reassembleAux_map_stripR _ rs 0

/-- The coordinate key of a flattened pin. -/
def pinKey (fp : FlatPin) : Nat × Nat :=
  (fp.uIdx, fp.vIdx)

/-- The coordinate-and-date key of a scheduled pin: everything the
re-assembly lookup can observe. -/
def schedKey (sp : ScheduledPin) : Nat × Nat × String :=
  (sp.uIdx, sp.vIdx, sp.dateStr)

theorem flattenVarsAux_map_pinKey :
    ∀ (vs₁ vs₂ : List PinVariation) (url₁ url₂ : String) (u vi : Nat),
      vs₁.length = vs₂.length →
      (flattenVarsAux url₁ vs₁ u vi).map pinKey = (flattenVarsAux url₂ vs₂ u vi).map pinKey := by
  intro vs₁
  induction vs₁ with
  | nil =>
    intro vs₂ url₁ url₂ u vi h
    cases vs₂ with
    | nil => rfl
    | cons b bs => simp at h
  | cons a as ih =>
    intro vs₂ url₁ url₂ u vi h
    cases vs₂ with
    | nil => simp at h
    | cons b bs =>
      simp only [List.length_cons, Nat.add_right_cancel_iff] at h
      simp [flattenVarsAux, pinKey, ih bs url₁ url₂ u (vi + 1) h]

theorem flattenPinsAux_map_pinKey :
    ∀ (rs₁ rs₂ : List CampaignResult) (u : Nat),
      rs₁.map stripR = rs₂.map stripR →
      (flattenPinsAux rs₁ u).map pinKey = (flattenPinsAux rs₂ u).map pinKey := by
  intro rs₁
  induction rs₁ with
  | nil =>
    intro rs₂ u h
    cases rs₂ with
    | nil => rfl
    | cons b bs => simp at h
  | cons a as ih =>
    intro rs₂ u h
    cases rs₂ with
    | nil => simp at h
    | cons b bs =>
      simp only [List.map_cons, List.cons.injEq] at h
      obtain ⟨hhead, htail⟩ := h
      have hlen : a.variations.length = b.variations.length := by
        have := congrArg (fun r => r.variations.length) hhead
        simpa [stripR] using this
      simp only [flattenPinsAux, List.map_append]
      rw [flattenVarsAux_map_pinKey a.variations b.variations a.sourceUrl b.sourceUrl u 0 hlen,
        ih bs (u + 1) htail]

theorem schedFlatAux_map_schedKey (p : Nat) (st : CalDate) :
    ∀ (l₁ l₂ : List FlatPin) (n : Nat),
      l₁.map pinKey = l₂.map pinKey →
      (schedFlatAux p st l₁ n).map schedKey = (schedFlatAux p st l₂ n).map schedKey := by
  intro l₁
  induction l₁ with
  | nil =>
    intro l₂ n h
    cases l₂ with
    | nil => rfl
    | cons b bs => simp at h
  | cons a as ih =>
    intro l₂ n h
    cases l₂ with
    | nil => simp at h
    | cons b bs =>
      simp only [List.map_cons, List.cons.injEq] at h
      obtain ⟨hhead, htail⟩ := h
      simp only [pinKey, Prod.mk.injEq] at hhead
      simp [schedFlatAux, schedKey, hhead.1, hhead.2, ih bs (n + 1) htail]

theorem lookupDate_congr :
    ∀ (sf₁ sf₂ : List ScheduledPin),
      sf₁.map schedKey = sf₂.map schedKey →
      ∀ (u vi : Nat), lookupDate sf₁ u vi = lookupDate sf₂ u vi := by
  intro sf₁
  induction sf₁ with
  | nil =>
    intro sf₂ h u vi
    cases sf₂ with
    | nil => rfl
    | cons b bs => simp at h
  | cons a as ih =>
    intro sf₂ h u vi
    cases sf₂ with
    | nil => simp at h
    | cons b bs =>
      simp only [List.map_cons, List.cons.injEq] at h
      obtain ⟨hhead, htail⟩ := h
      simp only [schedKey, Prod.mk.injEq] at hhead
      unfold lookupDate
      rw [List.find?_cons, List.find?_cons, hhead.1, hhead.2.1]
      cases hp : (b.uIdx == u && b.vIdx == vi) with
      | true => simp [hhead.2.2]
      | false => exact ih bs htail u vi

theorem reassembleVarsAux_twice (sf₁ sf₂ : List ScheduledPin) (u : Nat)
    (h : sf₁.map schedKey = sf₂.map schedKey) :
    ∀ (vs : List PinVariation) (vi : Nat),
      reassembleVarsAux sf₂ u (reassembleVarsAux sf₁ u vs vi) vi =
        reassembleVarsAux sf₁ u vs vi := by
  intro vs
  induction vs with
  | nil => intro vi; rfl
  | cons v rest ih =>
    intro vi
    simp [reassembleVarsAux, ih (vi + 1), lookupDate_congr sf₁ sf₂ h u vi]

theorem reassembleAux_twice (sf₁ sf₂ : List ScheduledPin)
    (h : sf₁.map schedKey = sf₂.map schedKey) :
    ∀ (rs : List CampaignResult) (u : Nat),
      reassembleAux sf₂ (reassembleAux sf₁ rs u) u = reassembleAux sf₁ rs u := by
  intro rs
  induction rs with
  | nil => intro u; rfl
  | cons r rest ih =>
    intro u
    simp [reassembleAux, ih (u + 1), reassembleVarsAux_twice sf₁ sf₂ u h r.variations 0]

theorem scheduleCampaign_idem (rs : List CampaignResult) (s : AppSettings) :
    scheduleCampaign (scheduleCampaign rs s) s = scheduleCampaign rs s := by
  have hstrip : (scheduleCampaign rs s).map stripR = rs.map stripR :=
    scheduleCampaign_map_stripR rs s
  unfold scheduleCampaign
  apply reassembleAux_twice
  apply schedFlatAux_map_schedKey
  apply flattenPinsAux_map_pinKey
  exact hstrip.symm

/-- `scheduleCampaign` reads its settings only through the effective
`pinsPerDay` and the start date. -/
theorem scheduleCampaign_settings_congr (rs : List CampaignResult) (s₁ s₂ : AppSettings)
    (h1 : effectivePinsPerDay s₁.pinsPerDay = effectivePinsPerDay s₂.pinsPerDay)
    (h2 : s₁.startDate = s₂.startDate) :
    scheduleCampaign rs s₁ = scheduleCampaign rs s₂ := by
  unfold scheduleCampaign
  rw [h1, h2]

/-! ## Claim C5: slot distinctness and the publishing window -/

/-- **C5.** For every `itemsPerDay` with `1 ≤ itemsPerDay ≤ 60`: every
assigned hour lies in `[9, 21)`, and two distinct slots of the same day get
distinct `(hour, minute)` pairs — indeed the minute jitter
`slot * 17 mod 60` alone is injective on `0 .. itemsPerDay - 1`. -/
theorem claim_C5 : ∀ p : Nat, 1 ≤ p → p ≤ 60 →
    (∀ slot, slot < p → 9 ≤ slotHour p slot ∧ slotHour p slot < 21) ∧
    (∀ i j, i < p → j < p → i ≠ j →
      ¬(slotHour p i = slotHour p j ∧ slotMinute i = slotMinute j)) := by
  intro p hp1 hp60
  constructor
  · intro slot hslot
    refine ⟨Nat.le_add_right 9 _, ?_⟩
    unfold slotHour
    have h2 : slot * 12 < 12 * p := by omega
    have hd : slot * 12 / p < 12 := (Nat.div_lt_iff_lt_mul (by omega)).mpr h2
    omega
  · rintro i j hi hj hne ⟨_, hm⟩
    apply hne
    have hmod : Nat.ModEq 60 (17 * i) (17 * j) := by
      show 17 * i % 60 = 17 * j % 60
      unfold slotMinute at hm
      omega
    have h53 := hmod.mul_left 53
    have e1 : 53 * (17 * i) = 901 * i := by ring
    have e2 : 53 * (17 * j) = 901 * j := by ring
    rw [e1, e2] at h53
    have h901 : Nat.ModEq 60 901 1 := by decide
    have hi901 := (h901.mul_right i).symm
    have hj901 := h901.mul_right j
    rw [one_mul] at hi901 hj901
    have hij : Nat.ModEq 60 i j := (hi901.trans h53).trans hj901
    have hmods : i % 60 = j % 60 := hij
    rw [Nat.mod_eq_of_lt (by omega), Nat.mod_eq_of_lt (by omega)] at hmods
    exact hmods

/-- Applies `claim_C5` at `itemsPerDay = 3` and the concrete slots `1, 2`. -/
theorem claim_C5_witness :
    (9 ≤ slotHour 3 1 ∧ slotHour 3 1 < 21) ∧
      ¬(slotHour 3 1 = slotHour 3 2 ∧ slotMinute 1 = slotMinute 2) := by
  have h := claim_C5 3 (by decide) (by decide)
  exact ⟨h.1 1 (by decide), h.2 1 2 (by decide) (by decide) (by decide)⟩

/-! ## Claim C6: defaulting of `pinsPerDay` (corrected) -/

/-- A campaign result with two variations, used by concrete scheduling
counterexamples and witnesses. -/
def twoVarResult : CampaignResult :=
  ⟨"https://a.com", sampleAnalysis,
    [mkVar "v1" ["Board"] ["k"] "d" none, mkVar "v2" ["Board"] ["k"] "d" none]⟩

/-- **C6 counterexample.** The claim says every raw `pinsPerDay ≤ 0` behaves
like the default `3`; but for the raw value `-5` the code clamps to `1`
(`-5` is truthy in JS, so `|| 3` does not fire), which schedules the second
variation on the next day instead of the same day. -/
theorem claim_C6_cx :
    (scheduleCampaign [twoVarResult] ⟨-5, "2024-01-01", 3⟩).map
        (fun r => r.variations.map (fun v => v.scheduledDate)) ≠
      (scheduleCampaign [twoVarResult] ⟨3, "2024-01-01", 3⟩).map
        (fun r => r.variations.map (fun v => v.scheduledDate)) := by
  decide

/-- **C6 (amended).** A raw `pinsPerDay` of `0` (the only falsy integer)
defaults to `3`; a negative raw value is clamped to `1`, not `3`; a positive
raw value is used as is (`max 1` leaves it unchanged). -/
theorem claim_C6 : ∀ (rs : List CampaignResult) (s : AppSettings),
    (s.pinsPerDay = 0 →
      scheduleCampaign rs s = scheduleCampaign rs ⟨3, s.startDate, s.variationsPerUrl⟩) ∧
    (s.pinsPerDay < 0 →
      scheduleCampaign rs s = scheduleCampaign rs ⟨1, s.startDate, s.variationsPerUrl⟩) ∧
    (0 < s.pinsPerDay → effectivePinsPerDay s.pinsPerDay = s.pinsPerDay.toNat) := by
  intro rs s
  refine ⟨?_, ?_, ?_⟩
  · intro h0
    refine scheduleCampaign_settings_congr rs s _ ?_ rfl
    rw [h0]
    show effectivePinsPerDay 0 = effectivePinsPerDay 3
    decide
  · intro hneg
    refine scheduleCampaign_settings_congr rs s _ ?_ rfl
    show effectivePinsPerDay s.pinsPerDay = effectivePinsPerDay 1
    unfold effectivePinsPerDay
    rw [if_neg (by omega), max_eq_left (by omega : s.pinsPerDay ≤ 1)]
    decide
  · intro hpos
    unfold effectivePinsPerDay
    rw [if_neg (by omega), max_eq_right (by omega : (1 : Int) ≤ s.pinsPerDay)]

/-- Applies `claim_C6` at the concrete raw values `0` and `4`. -/
theorem claim_C6_witness :
    scheduleCampaign [twoVarResult] ⟨0, "2024-01-01", 3⟩ =
        scheduleCampaign [twoVarResult] ⟨3, "2024-01-01", 3⟩ ∧
      scheduleCampaign [twoVarResult] ⟨-5, "2024-01-01", 3⟩ =
        scheduleCampaign [twoVarResult] ⟨1, "2024-01-01", 3⟩ ∧
      effectivePinsPerDay 4 = 4 := by
  refine ⟨(claim_C6 [twoVarResult] ⟨0, "2024-01-01", 3⟩).1 rfl,
    (claim_C6 [twoVarResult] ⟨-5, "2024-01-01", 3⟩).2.1 (by decide),
    (claim_C6 [twoVarResult] ⟨4, "2024-01-01", 3⟩).2.2 (by decide)⟩

/-! ## Claim C7: shape preservation and frame -/

/-- **C7.** `scheduleCampaign` returns a list of the same length as the
input, and erasing every `scheduledDate` from the output yields exactly the
input with its `scheduledDate`s erased: same sources in the same order, same
variations in the same order (empty lists included), every field other than
`scheduledDate` unchanged. The embedding is purely functional, so the input
value itself is never mutated. -/
theorem claim_C7 (rs : List CampaignResult) (s : AppSettings) :
    (scheduleCampaign rs s).length = rs.length ∧
      (scheduleCampaign rs s).map stripR = rs.map stripR := by
  have h := scheduleCampaign_map_stripR rs s
  refine ⟨?_, h⟩
  have := congrArg List.length h
  simpa using this

/-! ## Claim C8: idempotence and determinism -/

/-- **C8.** Rescheduling an already scheduled campaign with the same settings
is a no-op: the date strings depend only on flattened position and settings,
and the second pass overwrites each `scheduledDate` with the identical value.
Determinism is inherent: `scheduleCampaign` is a pure function of its two
arguments. -/
theorem claim_C8 (rs : List CampaignResult) (s : AppSettings) :
    scheduleCampaign (scheduleCampaign rs s) s = scheduleCampaign rs s := by
  have hstrip : (scheduleCampaign rs s).map stripR = rs.map stripR :=
    scheduleCampaign_map_stripR rs s
  unfold scheduleCampaign
  apply reassembleAux_twice
  apply schedFlatAux_map_schedKey
  apply flattenPinsAux_map_pinKey
  exact hstrip.symm

/-! ## CSV lemmas: row projection -/

/-- The seven cells the projection produces for one `(source, variation)`
pair (the board cell is the first suggested board). -/
def cellsOf (sourceUrl : String) (v : PinVariation) : List String :=
  ["\"" ++ escQuotes v.title ++ "\"",
   "\"" ++ v.publicMediaUrl.getD "" ++ "\"",
   "\"" ++ escQuotes (v.suggestedBoards.headD "") ++ "\"",
   "\"" ++ escQuotes v.description ++ "\"",
   "\"" ++ sourceUrl ++ "\"",
   "\"" ++ v.scheduledDate.getD "" ++ "\"",
   "\"" ++ escQuotes (joinWith ", " v.keywords) ++ "\""]

/-- The full projected table for inputs that pass the projection stage. -/
def specRows (data : List CampaignResult) : List (List String) :=
  data.flatMap (fun r => r.variations.map (cellsOf r.sourceUrl))

theorem projectRow_ok (url : String) (v : PinVariation)
    (hgood : hasPublicHttps v = true) (hb : v.suggestedBoards ≠ []) :
    projectRow url v = .ok (cellsOf url v) := by
  cases hm : v.publicMediaUrl with
  | none => exact absurd hgood (by simp [hasPublicHttps, hm])
  | some m =>
    have hs : strStartsWith m "https://" = true := by
      simpa [hasPublicHttps, hm] using hgood
    cases hbs : v.suggestedBoards with
    | nil => exact absurd hbs hb
    | cons b bs => simp [projectRow, cellsOf, hm, hbs, hs]

theorem projectRow_bad (url : String) (v : PinVariation)
    (hbad : hasPublicHttps v = false) :
    projectRow url v = .error (.thrown (cloudSyncMsg v.title)) := by
  cases hm : v.publicMediaUrl with
  | none => simp [projectRow, hm]
  | some m =>
    have hs : strStartsWith m "https://" = false := by
      simpa [hasPublicHttps, hm] using hbad
    simp [projectRow, hm, hs]

theorem projectRow_typeError (url : String) (v : PinVariation)
    (hgood : hasPublicHttps v = true) (hnil : v.suggestedBoards = []) :
    projectRow url v = .error .typeError := by
  cases hm : v.publicMediaUrl with
  | none => exact absurd hgood (by simp [hasPublicHttps, hm])
  | some m =>
    have hs : strStartsWith m "https://" = true := by
      simpa [hasPublicHttps, hm] using hgood
    simp [projectRow, hm, hs, hnil]

theorem projectRow_no_typeError (url : String) (v : PinVariation)
    (hb : v.suggestedBoards ≠ []) :
    projectRow url v ≠ .error .typeError := by
  cases hgood : hasPublicHttps v with
  | false => rw [projectRow_bad url v hgood]; simp
  | true =>
    cases hbs : v.suggestedBoards with
    | nil => exact absurd hbs hb
    | cons b bs =>
      rw [projectRow_ok url v hgood (by rw [hbs]; simp)]
      simp

theorem projectVariations_ok (url : String) :
    ∀ vs : List PinVariation,
      (∀ v ∈ vs, hasPublicHttps v = true ∧ v.suggestedBoards ≠ []) →
      projectVariations url vs = .ok (vs.map (cellsOf url)) := by
  intro vs
  induction vs with
  | nil => intro _; rfl
  | cons v rest ih =>
    intro h
    have hv := h v (by simp)
    have hrest : ∀ x ∈ rest, hasPublicHttps x = true ∧ x.suggestedBoards ≠ [] := by
      intro x hx; exact h x (by simp [hx])
    unfold projectVariations
    rw [projectRow_ok url v hv.1 hv.2, ih hrest]
    simp

theorem buildRows_of_all_good :
    ∀ data : List CampaignResult,
      (∀ v ∈ allVars data, hasPublicHttps v = true ∧ v.suggestedBoards ≠ []) →
      buildRows data = .ok (specRows data) := by
  intro data
  induction data with
  | nil => intro _; rfl
  | cons r rest ih =>
    intro h
    have hr : ∀ v ∈ r.variations, hasPublicHttps v = true ∧ v.suggestedBoards ≠ [] := by
      intro v hv; exact h v (by simp [allVars, hv])
    have hrest : ∀ v ∈ allVars rest, hasPublicHttps v = true ∧ v.suggestedBoards ≠ [] := by
      intro v hv
      refine h v ?_
      simp only [allVars, List.flatMap_cons, List.mem_append]
      right
      simpa [allVars] using hv
    unfold buildRows
    rw [projectVariations_ok r.sourceUrl r.variations hr, ih hrest]
    simp [specRows]

theorem projectVariations_ok_inv (url : String) :
    ∀ (vs : List PinVariation) (rows : List (List String)),
      projectVariations url vs = .ok rows →
      ∀ v ∈ vs, hasPublicHttps v = true ∧ v.suggestedBoards ≠ [] := by
  intro vs
  induction vs with
  | nil => intro rows _ v hv; simp at hv
  | cons a rest ih =>
    intro rows h v hv
    unfold projectVariations at h
    cases hp : projectRow url a with
    | error e => rw [hp] at h; exact absurd h (by simp)
    | ok row =>
      rw [hp] at h
      cases hq : projectVariations url rest with
      | error e => rw [hq] at h; exact absurd h (by simp)
      | ok rest' =>
        rcases List.mem_cons.mp hv with rfl | hv'
        · have hgood : hasPublicHttps v = true := by
            by_contra hbad
            rw [projectRow_bad url v (by simpa using hbad)] at hp
            exact absurd hp (by simp)
          refine ⟨hgood, fun hnil => ?_⟩
          rw [projectRow_typeError url v hgood hnil] at hp
          exact absurd hp (by simp)
        · exact ih rest' hq v hv'

theorem buildRows_ok_inv :
    ∀ (data : List CampaignResult) (rows : List (List String)),
      buildRows data = .ok rows →
      ∀ v ∈ allVars data, hasPublicHttps v = true ∧ v.suggestedBoards ≠ [] := by
  intro data
  induction data with
  | nil => intro rows _ v hv; simp [allVars] at hv
  | cons r rest ih =>
    intro rows h v hv
    unfold buildRows at h
    cases hp : projectVariations r.sourceUrl r.variations with
    | error e => rw [hp] at h; exact absurd h (by simp)
    | ok rows1 =>
      rw [hp] at h
      cases hq : buildRows rest with
      | error e => rw [hq] at h; exact absurd h (by simp)
      | ok rows2 =>
        simp only [allVars, List.flatMap_cons, List.mem_append] at hv
        rcases hv with hv1 | hv2
        · exact projectVariations_ok_inv r.sourceUrl r.variations rows1 hp v hv1
        · exact ih rows2 hq v (by simpa [allVars] using hv2)

theorem buildRows_ok_eq (data : List CampaignResult) (rows : List (List String))
    (h : buildRows data = .ok rows) : rows = specRows data := by
  have hall := buildRows_ok_inv data rows h
  have h2 := buildRows_of_all_good data hall
  rw [h] at h2
  exact Except.ok.inj h2

theorem projectVariations_firstBad (url : String) :
    ∀ vs : List PinVariation, (∀ v ∈ vs, v.suggestedBoards ≠ []) →
      ∀ b, vs.find? (fun v => !hasPublicHttps v) = some b →
      projectVariations url vs = .error (.thrown (cloudSyncMsg b.title)) := by
  intro vs
  induction vs with
  | nil => intro _ b hfind; simp at hfind
  | cons a rest ih =>
    intro hboards b hfind
    rw [List.find?_cons] at hfind
    cases hba : (!hasPublicHttps a) with
    | true =>
      rw [hba] at hfind
      have hb : a = b := by simpa using hfind
      subst hb
      unfold projectVariations
      rw [projectRow_bad url a (by simpa using hba)]
    | false =>
      rw [hba] at hfind
      have hgood : hasPublicHttps a = true := by simpa using hba
      have hrest : ∀ v ∈ rest, v.suggestedBoards ≠ [] := by
        intro v hv; exact hboards v (by simp [hv])
      unfold projectVariations
      rw [projectRow_ok url a hgood (hboards a (by simp)), ih hrest b hfind]

theorem buildRows_firstBad :
    ∀ data : List CampaignResult, (∀ v ∈ allVars data, v.suggestedBoards ≠ []) →
      ∀ b, (allVars data).find? (fun v => !hasPublicHttps v) = some b →
      buildRows data = .error (.thrown (cloudSyncMsg b.title)) := by
  intro data
  induction data with
  | nil => intro _ b hfind; simp [allVars] at hfind
  | cons r rest ih =>
    intro hboards b hfind
    have hsplit : allVars (r :: rest) = r.variations ++ allVars rest := by
      simp [allVars]
    rw [hsplit, List.find?_append] at hfind
    have hbr : ∀ v ∈ r.variations, v.suggestedBoards ≠ [] := by
      intro v hv; exact hboards v (by rw [hsplit]; simp [hv])
    have hbrest : ∀ v ∈ allVars rest, v.suggestedBoards ≠ [] := by
      intro v hv; exact hboards v (by rw [hsplit]; simp [hv])
    cases h1 : r.variations.find? (fun v => !hasPublicHttps v) with
    | some b1 =>
      rw [h1] at hfind
      have hb : b1 = b := by simpa using hfind
      subst hb
      unfold buildRows
      rw [projectVariations_firstBad r.sourceUrl r.variations hbr b1 h1]
    | none =>
      rw [h1] at hfind
      simp only [Option.none_or] at hfind
      have hgoodr : ∀ v ∈ r.variations, hasPublicHttps v = true ∧ v.suggestedBoards ≠ [] := by
        intro v hv
        refine ⟨?_, hbr v hv⟩
        have := List.find?_eq_none.mp h1 v hv
        simpa using this
      unfold buildRows
      rw [projectVariations_ok r.sourceUrl r.variations hgoodr, ih hbrest b hfind]

theorem projectVariations_no_typeError (url : String) :
    ∀ vs : List PinVariation, (∀ v ∈ vs, v.suggestedBoards ≠ []) →
      projectVariations url vs ≠ .error .typeError := by
  intro vs
  induction vs with
  | nil => intro _; simp [projectVariations]
  | cons a rest ih =>
    intro hboards
    have ha := projectRow_no_typeError url a (hboards a (by simp))
    have hrest : ∀ v ∈ rest, v.suggestedBoards ≠ [] := by
      intro v hv; exact hboards v (by simp [hv])
    unfold projectVariations
    cases hp : projectRow url a with
    | error e =>
      cases e with
      | thrown m => simp
      | typeError => exact absurd hp ha
    | ok row =>
      cases hq : projectVariations url rest with
      | error e =>
        cases e with
        | thrown m => simp
        | typeError => exact absurd hq (ih hrest)
      | ok rest' => simp

theorem buildRows_no_typeError :
    ∀ data : List CampaignResult, (∀ v ∈ allVars data, v.suggestedBoards ≠ []) →
      buildRows data ≠ .error .typeError := by
  intro data
  induction data with
  | nil => intro _; simp [buildRows]
  | cons r rest ih =>
    intro hboards
    have hsplit : allVars (r :: rest) = r.variations ++ allVars rest := by
      simp [allVars]
    have hbr : ∀ v ∈ r.variations, v.suggestedBoards ≠ [] := by
      intro v hv; exact hboards v (by rw [hsplit]; simp [hv])
    have hbrest : ∀ v ∈ allVars rest, v.suggestedBoards ≠ [] := by
      intro v hv; exact hboards v (by rw [hsplit]; simp [hv])
    unfold buildRows
    cases hp : projectVariations r.sourceUrl r.variations with
    | error e =>
      cases e with
      | thrown m => simp
      | typeError => exact absurd hp (projectVariations_no_typeError r.sourceUrl r.variations hbr)
    | ok rows1 =>
      cases hq : buildRows rest with
      | error e =>
        cases e with
        | thrown m => simp
        | typeError => exact absurd hq (ih hbrest)
      | ok rows2 => simp

/-! The projection never reads `generatedImageUrl` (the local Base64 preview). -/

/-- Rewrite every variation's `generatedImageUrl` through `f`, leaving all
other fields alone. -/
def mapGenUrl (f : Option String → Option String) (data : List CampaignResult) :
    List CampaignResult :=
  data.map (fun r =>
    { r with variations := r.variations.map (fun v =>
        { v with generatedImageUrl := f v.generatedImageUrl }) })

theorem projectVariations_genUrl (url : String) (f : Option String → Option String) :
    ∀ vs : List PinVariation,
      projectVariations url (vs.map (fun v => { v with generatedImageUrl := f v.generatedImageUrl })) =
        projectVariations url vs := by
  intro vs
  induction vs with
  | nil => rfl
  | cons a rest ih =>
    simp only [List.map_cons]
    unfold projectVariations
    rw [ih]
    rfl

theorem buildRows_genUrl (f : Option String → Option String) :
    ∀ data : List CampaignResult, buildRows (mapGenUrl f data) = buildRows data := by
  intro data
  induction data with
  | nil => rfl
  | cons r rest ih =>
    show buildRows (_ :: mapGenUrl f rest) = _
    unfold buildRows
    rw [show (mapGenUrl f rest) = mapGenUrl f rest from rfl, ih]
    rw [projectVariations_genUrl r.sourceUrl f r.variations]

theorem generateCSVString_genUrl (f : Option String → Option String)
    (data : List CampaignResult) :
    generateCSVString (mapGenUrl f data) = generateCSVString data := by
  unfold generateCSVString
  rw [buildRows_genUrl f data]
  have hl : (mapGenUrl f data).length = data.length := by simp [mapGenUrl]
  rw [hl]

theorem generateCSVString_thrown (data : List CampaignResult) (m : String)
    (h : buildRows data = .error (.thrown m)) : generateCSVString data = .err m := by
  unfold generateCSVString
  rw [h]

theorem generateCSVString_typeError (data : List CampaignResult)
    (h : buildRows data = .error .typeError) : generateCSVString data = .crash := by
  unfold generateCSVString
  rw [h]

theorem generateCSVString_ok_inv (data : List CampaignResult) (csv : String)
    (h : generateCSVString data = .ok csv) :
    ∃ rows, buildRows data = .ok rows ∧ rows.length = data.length * 3 ∧
      validateRowsAux rows 1 = .ok () ∧
      csv = joinWith "\n" (joinWith "," csvHeaders :: rows.map (joinWith ",")) := by
  unfold generateCSVString at h
  split at h
  · simp at h
  · simp at h
  · rename_i rows heq
    by_cases hlen : rows.length ≠ data.length * 3
    · rw [if_pos hlen] at h
      simp at h
    · rw [if_neg hlen] at h
      split at h
      · simp at h
      · rename_i u hv
        cases u
        exact ⟨rows, heq, not_not.mp hlen, hv, (CsvResult.ok.inj h).symm⟩

theorem specRows_length :
    ∀ data : List CampaignResult, (specRows data).length = (allVars data).length := by
  intro data
  induction data with
  | nil => rfl
  | cons r rest ih =>
    simp only [specRows, allVars, List.flatMap_cons, List.length_append, List.length_map]
    simp only [specRows, allVars] at ih
    rw [ih]

theorem allVars_length_of_three :
    ∀ data : List CampaignResult, (∀ r ∈ data, r.variations.length = 3) →
      (allVars data).length = data.length * 3 := by
  intro data
  induction data with
  | nil => intro _; rfl
  | cons r rest ih =>
    intro h
    have hr := h r (by simp)
    have hrest : ∀ x ∈ rest, x.variations.length = 3 := by
      intro x hx; exact h x (by simp [hx])
    simp only [allVars, List.flatMap_cons, List.length_append, List.length_cons]
    simp only [allVars] at ih
    rw [ih hrest, hr]
    ring

/-! ## Concrete data for CSV witnesses and counterexamples -/

/-- A variation whose `publicMediaUrl` is a data URI: fails the export gate. -/
def badVar : PinVariation :=
  mkVar "Bad Pin" ["Board"] ["k"] "desc" (some "data:image/png;base64,AAAA")

/-- A variation with a good public URL but an empty `suggestedBoards` list. -/
def noBoardsVar : PinVariation :=
  mkVar "NB" [] ["k"] "desc" (some "https://img.example/1.png")

/-- A fully valid, scheduled variation. -/
def schedVar (title pub : String) : PinVariation :=
  { mkVar title ["Board"] ["kw1", "kw2"] "Nice desc" (some pub) with
      scheduledDate := some "2024-01-01 09:00" }

/-- A valid but unscheduled variation. -/
def goodVar1 : PinVariation :=
  mkVar "Pin One" ["Board"] ["k"] "desc" (some "https://img.example/1.png")

/-! ## Claim C2: the public-URL export gate (corrected) -/

/-- Input whose first variation passes the URL gate but has no boards, and
whose second variation fails the URL gate. -/
def c2CxData : List CampaignResult :=
  [⟨"https://src.example", sampleAnalysis, [noBoardsVar, badVar]⟩]

/-- **C2 counterexample.** A list containing a variation whose
`publicMediaUrl` is a data URI on which `generateCSVString` does *not* throw
an error naming that variation's title: the preceding variation's
`suggestedBoards[0]` access crashes (a `TypeError`) first. -/
theorem claim_C2_cx :
    generateCSVString c2CxData = CsvResult.crash ∧
      (allVars c2CxData).any (fun v => !hasPublicHttps v) = true := by
  decide

/-- **C2 (amended).** Provided every variation has a non-empty
`suggestedBoards` list (otherwise the projection crashes before reaching the
gate), a list with a failing `publicMediaUrl` makes `generateCSVString`
return the `Cloud Sync Missing` error naming the first offending variation's
title. Unconditionally: with any failing `publicMediaUrl` present no CSV text
is ever produced, and the local preview `generatedImageUrl` is never read at
all. -/
theorem claim_C2 :
    (∀ (data : List CampaignResult) (b : PinVariation),
      (∀ v ∈ allVars data, v.suggestedBoards ≠ []) →
      (allVars data).find? (fun v => !hasPublicHttps v) = some b →
      generateCSVString data = CsvResult.err (cloudSyncMsg b.title)) ∧
    (∀ (data : List CampaignResult) (csv : String),
      (allVars data).any (fun v => !hasPublicHttps v) = true →
      generateCSVString data ≠ CsvResult.ok csv) ∧
    (∀ (f : Option String → Option String) (data : List CampaignResult),
      generateCSVString (mapGenUrl f data) = generateCSVString data) := by
  refine ⟨?_, ?_, generateCSVString_genUrl⟩
  · intro data b hboards hfind
    exact generateCSVString_thrown data _ (buildRows_firstBad data hboards b hfind)
  · intro data csv hany hok
    obtain ⟨rows, hb, _, _, _⟩ := generateCSVString_ok_inv data csv hok
    obtain ⟨v, hv, hbad⟩ := List.any_eq_true.mp hany
    have := (buildRows_ok_inv data rows hb v hv).1
    simp [this] at hbad

/-- Input with sound boards everywhere and a data-URI `publicMediaUrl` in
second position. -/
def c2WData : List CampaignResult :=
  [⟨"https://src.example", sampleAnalysis, [goodVar1, badVar]⟩]

/-- Applies `claim_C2` to `c2WData`. -/
theorem claim_C2_witness :
    generateCSVString c2WData = CsvResult.err (cloudSyncMsg "Bad Pin") ∧
      generateCSVString c2WData ≠ CsvResult.ok "" := by
  constructor
  · exact claim_C2.1 c2WData badVar (by decide) (by decide)
  · exact claim_C2.2.1 c2WData "" (by decide)

/-! ## Claim C10: the unguarded `suggestedBoards[0]` read -/

/-- A single good-URL variation with no suggested boards. -/
def c10CrashData : List CampaignResult :=
  [⟨"https://src.example", sampleAnalysis, [noBoardsVar]⟩]

/-- Three valid rows whose first board string is present but empty. -/
def c10BoardData : List CampaignResult :=
  [⟨"https://src.example", sampleAnalysis,
    [{ schedVar "T1" "https://img.example/1.png" with suggestedBoards := [""] },
     schedVar "T2" "https://img.example/2.png",
     schedVar "T3" "https://img.example/3.png"]⟩]

/-- A good-boards input (the totality half of C10 applies to it). -/
def c10OkData : List CampaignResult :=
  [⟨"https://src.example", sampleAnalysis, [goodVar1]⟩]

/-- **C10.** `generateCSVString` reads `suggestedBoards[0]` without a guard:
it never crashes when every variation has a non-empty `suggestedBoards` list,
but a variation with an empty list crashes the projection (no validation
error is produced), while the `Board empty` validation error is reachable
exactly for a present-but-empty first board string. -/
theorem claim_C10 :
    (∀ data : List CampaignResult, (∀ v ∈ allVars data, v.suggestedBoards ≠ []) →
      generateCSVString data ≠ CsvResult.crash) ∧
    generateCSVString c10CrashData = CsvResult.crash ∧
    generateCSVString c10BoardData = CsvResult.err "Row 1: Board empty." := by
  refine ⟨?_, by decide, by decide⟩
  intro data hboards hcrash
  unfold generateCSVString at hcrash
  split at hcrash
  · simp at hcrash
  · rename_i heq
    exact buildRows_no_typeError data hboards heq
  · rename_i rows heq
    by_cases hlen : rows.length ≠ data.length * 3
    · rw [if_pos hlen] at hcrash
      simp at hcrash
    · rw [if_neg hlen] at hcrash
      split at hcrash
      · simp at hcrash
      · simp at hcrash

/-- Applies the totality half of `claim_C10` to `c10OkData`. -/
theorem claim_C10_witness : generateCSVString c10OkData ≠ CsvResult.crash :=
  claim_C10.1 c10OkData (by decide)

/-! ## Claim C3: batch-integrity check (corrected) -/

theorem generateCSVString_ok_rows (data : List CampaignResult)
    (rows : List (List String)) (h : buildRows data = .ok rows) :
    generateCSVString data =
      if rows.length ≠ data.length * 3 then
        .err (batchMsg (data.length * 3) rows.length)
      else
        match validateRowsAux rows 1 with
        | .error msg => .err msg
        | .ok _ => .ok (joinWith "\n" (joinWith "," csvHeaders :: rows.map (joinWith ","))) := by
  unfold generateCSVString
  rw [h]

/-- **C3 (amended).** Provided every variation passes the public-URL gate
*and* has a non-empty `suggestedBoards` list (otherwise the projection
crashes before the count check), a total variation count different from
`sources.length × 3` yields exactly the `Batch Integrity Failure` error, and
with three variations per source the projection succeeds with exactly
`sources.length × 3` rows, so the count check passes. -/
theorem claim_C3 : ∀ data : List CampaignResult,
    (∀ v ∈ allVars data, hasPublicHttps v = true ∧ v.suggestedBoards ≠ []) →
    ((allVars data).length ≠ data.length * 3 →
      generateCSVString data =
        CsvResult.err (batchMsg (data.length * 3) (allVars data).length)) ∧
    ((∀ r ∈ data, r.variations.length = 3) →
      buildRows data = Except.ok (specRows data) ∧
        (specRows data).length = data.length * 3) := by
  intro data hgood
  have hb := buildRows_of_all_good data hgood
  constructor
  · intro hne
    rw [generateCSVString_ok_rows data _ hb, specRows_length data, if_pos hne]
  · intro h3
    exact ⟨hb, by rw [specRows_length data]; exact allVars_length_of_three data h3⟩

/-- Two sources, five total variations, all passing the URL gate, one with an
empty board list. -/
def c3CxData : List CampaignResult :=
  [⟨"https://a.example", sampleAnalysis, [goodVar1, goodVar1, goodVar1]⟩,
   ⟨"https://b.example", sampleAnalysis, [goodVar1, noBoardsVar]⟩]

/-- **C3 counterexample.** Two sources with five total variations, every one
of which passes the public-URL gate; the claim promises the batch-integrity
error, but the code crashes on the empty `suggestedBoards` list before the
count check runs. -/
theorem claim_C3_cx :
    generateCSVString c3CxData = CsvResult.crash ∧
      c3CxData.length = 2 ∧ (allVars c3CxData).length = 5 ∧
      (allVars c3CxData).all (fun v => hasPublicHttps v) = true := by
  decide

/-- Two sources, five total gate-passing variations with sound boards. -/
def c3WData : List CampaignResult :=
  [⟨"https://a.example", sampleAnalysis, [goodVar1, goodVar1, goodVar1]⟩,
   ⟨"https://b.example", sampleAnalysis, [goodVar1, goodVar1]⟩]

/-- One source with exactly three gate-passing variations. -/
def c3W3Data : List CampaignResult :=
  [⟨"https://a.example", sampleAnalysis, [goodVar1, goodVar1, goodVar1]⟩]

/-- Applies `claim_C3` to `c3WData` (count mismatch) and `c3W3Data`
(three per source). -/
theorem claim_C3_witness :
    generateCSVString c3WData =
        CsvResult.err (batchMsg (c3WData.length * 3) (allVars c3WData).length) ∧
      buildRows c3W3Data = Except.ok (specRows c3W3Data) :=
  ⟨(claim_C3 c3WData (by decide)).1 (by decide),
   ((claim_C3 c3W3Data (by decide)).2 (by decide)).1⟩

/-! ## Claim C4: output serialization format (corrected) -/

/-- The serialization the code actually performs, stated independently
(amended spec): header row, then one row per `(source, variation)` pair in
input order; Title, Board, Description and Keywords are quote-wrapped with
internal quotes doubled, while Media URL, Link and Publish date are
quote-wrapped verbatim; columns joined by commas, rows by newlines. -/
def csvSpecActual (data : List CampaignResult) : String :=
  joinWith "\n" (joinWith "," csvHeaders :: (specRows data).map (joinWith ","))

/-- One row as the claim words it: every one of the seven fields
quote-wrapped with internal quotes doubled. -/
def cellsAllEscaped (sourceUrl : String) (v : PinVariation) : List String :=
  ["\"" ++ escQuotes v.title ++ "\"",
   "\"" ++ escQuotes (v.publicMediaUrl.getD "") ++ "\"",
   "\"" ++ escQuotes (v.suggestedBoards.headD "") ++ "\"",
   "\"" ++ escQuotes v.description ++ "\"",
   "\"" ++ escQuotes sourceUrl ++ "\"",
   "\"" ++ escQuotes (v.scheduledDate.getD "") ++ "\"",
   "\"" ++ escQuotes (joinWith ", " v.keywords) ++ "\""]

/-- The serialization the claim describes: quote-doubling applied to all
seven fields. -/
def csvAllEscaped (data : List CampaignResult) : String :=
  joinWith "\n" (joinWith "," csvHeaders ::
    (data.flatMap (fun r => r.variations.map (cellsAllEscaped r.sourceUrl))).map
      (joinWith ","))

/-- A source URL containing a double quote, with three valid variations. -/
def c4CxData : List CampaignResult :=
  [⟨"https://a\".example", sampleAnalysis,
    [schedVar "T1" "https://img.example/1.png",
     schedVar "T2" "https://img.example/2.png",
     schedVar "T3" "https://img.example/3.png"]⟩]

set_option maxRecDepth 8000 in
/-- **C4 counterexample.** For a source URL containing a double quote the
export succeeds, but the Link cell is emitted with the quote *not* doubled:
the output differs from the claim's all-fields-escaped serialization. -/
theorem claim_C4_cx :
    generateCSVString c4CxData = CsvResult.ok (csvSpecActual c4CxData) ∧
      csvSpecActual c4CxData ≠ csvAllEscaped c4CxData := by
  decide

/-- **C4 (amended).** Every successful export is exactly the header line
followed by one line per `(source, variation)` pair in input order, all seven
fields quote-wrapped, columns joined by commas and rows by newlines, with no
reordering or truncation — but the quote-doubling is applied only to Title,
Board, Description and Keywords; Media URL, Link and Publish date are
interpolated verbatim between their quotes. -/
theorem claim_C4 : ∀ (data : List CampaignResult) (csv : String),
    generateCSVString data = CsvResult.ok csv → csv = csvSpecActual data := by
  intro data csv h
  obtain ⟨rows, hb, _, _, hcsv⟩ := generateCSVString_ok_inv data csv h
  rw [hcsv, buildRows_ok_eq data rows hb]
  rfl

/-- A clean three-variation input with a quote inside one title. -/
def c4WData : List CampaignResult :=
  [⟨"https://site.example/post", sampleAnalysis,
    [schedVar "Title \"Quoted\"" "https://img.example/1.png",
     schedVar "B" "https://img.example/2.png",
     schedVar "C" "https://img.example/3.png"]⟩]

/-- The CSV text `generateCSVString` emits for `c4WData`, written out. -/
def c4WCsv : String :=
  "Title,Media URL,Pinterest board,Description,Link,Publish date,Keywords\n\"Title \"\"Quoted\"\"\",\"https://img.example/1.png\",\"Board\",\"Nice desc\",\"https://site.example/post\",\"2024-01-01 09:00\",\"kw1, kw2\"\n\"B\",\"https://img.example/2.png\",\"Board\",\"Nice desc\",\"https://site.example/post\",\"2024-01-01 09:00\",\"kw1, kw2\"\n\"C\",\"https://img.example/3.png\",\"Board\",\"Nice desc\",\"https://site.example/post\",\"2024-01-01 09:00\",\"kw1, kw2\""

set_option maxRecDepth 8000 in
/-- Applies `claim_C4` to `c4WData` and its concrete output. -/
theorem claim_C4_witness :
    generateCSVString c4WData = CsvResult.ok c4WCsv ∧
      c4WCsv = csvSpecActual c4WData :=
  ⟨by decide, claim_C4 c4WData c4WCsv (by decide)⟩

/-! ## Claim C9: per-row validation -/

/-- The spec's Stage 3 row-validity predicate, stated independently over the
stripped cells: all seven columns non-empty, Media URL HTTPS and free of
inline-data or blob indicators, Link HTTPS. -/
def rowValidB (cells : List String) : Bool :=
  !(getCell cells 0 == "") &&
  !(getCell cells 1 == "") && strStartsWith (getCell cells 1) "https://" &&
  !containsSubstr (getCell cells 1) "data:image" &&
  !containsSubstr (getCell cells 1) "blob:" &&
  !(getCell cells 2 == "") && !(getCell cells 3 == "") &&
  !(getCell cells 4 == "") && strStartsWith (getCell cells 4) "https://" &&
  !(getCell cells 5 == "") && !(getCell cells 6 == "")

/-- The error `validateRow` produces, if any. -/
def rowErr? (row : List String) (idx : Nat) : Option String :=
  match validateRow row idx with
  | .ok _ => none
  | .error m => some m

/-- The seven possible bodies of a `validateRow` error message, given the
stripped Media URL cell `m`. -/
def fieldMsgBodies (m : String) : List String :=
  ["Title empty.", mediaMsgBody m, "Board empty.", "Description empty.",
   "Link empty or not HTTPS.", "Date empty.", "Keywords empty."]

theorem validateCells_ok_iff (cells : List String) (idx : Nat) :
    validateCells cells idx = Except.ok () ↔ rowValidB cells = true := by
  simp only [validateCells, rowValidB]
  split_ifs with h1 h2 h3 h4 h5 h6 h7 <;> try simp_all
  all_goals intros
  all_goals exfalso
  all_goals try (rcases h5 with h | h <;> simp_all)
  all_goals try (rcases h2 with ((h | h) | h) | h <;> simp_all)

theorem validateCells_error_msg (cells : List String) (idx : Nat) (msg : String)
    (h : validateCells cells idx = Except.error msg) :
    msg ∈ (fieldMsgBodies (getCell cells 1)).map (rowMsg idx) := by
  simp only [validateCells] at h
  split_ifs at h with h1 h2 h3 h4 h5 h6 h7
  · obtain rfl := (Except.error.inj h).symm
    simp [fieldMsgBodies]
  · obtain rfl := (Except.error.inj h).symm
    simp [fieldMsgBodies]
  · obtain rfl := (Except.error.inj h).symm
    simp [fieldMsgBodies]
  · obtain rfl := (Except.error.inj h).symm
    simp [fieldMsgBodies]
  · obtain rfl := (Except.error.inj h).symm
    simp [fieldMsgBodies]
  · obtain rfl := (Except.error.inj h).symm
    simp [fieldMsgBodies]
  · obtain rfl := (Except.error.inj h).symm
    simp [fieldMsgBodies]

theorem validateRowsAux_cons_ok (r : List String) (rest : List (List String))
    (n : Nat) (hok : validateRow r n = .ok ()) :
    validateRowsAux (r :: rest) n = validateRowsAux rest (n + 1) := by
  show (match validateRow r n with
    | .error e => Except.error e
    | .ok _ => validateRowsAux rest (n + 1)) = validateRowsAux rest (n + 1)
  rw [hok]

theorem validateRowsAux_cons_err (r : List String) (rest : List (List String))
    (n : Nat) (m : String) (h : validateRow r n = .error m) :
    validateRowsAux (r :: rest) n = .error m := by
  unfold validateRowsAux
  rw [h]

theorem validateRowsAux_firstBad :
    ∀ (rows : List (List String)) (n : Nat),
      rows.any (fun r => !rowValidB (r.map stripQuotes)) = true →
      rows.findIdx (fun r => !rowValidB (r.map stripQuotes)) < rows.length ∧
        validateRowsAux rows n = .error
          ((rowErr? (rows.getD (rows.findIdx (fun r => !rowValidB (r.map stripQuotes))) [])
            (n + rows.findIdx (fun r => !rowValidB (r.map stripQuotes)))).getD "") := by
  intro rows
  induction rows with
  | nil => intro n h; simp at h
  | cons r rest ih =>
    intro n hany
    cases hr : (!rowValidB (r.map stripQuotes)) with
    | true =>
      have hfi : (r :: rest).findIdx (fun r => !rowValidB (r.map stripQuotes)) = 0 := by
        rw [List.findIdx_cons, hr]
        rfl
      have hnotok : validateRow r n ≠ .ok () := by
        intro hok
        have := (validateCells_ok_iff (r.map stripQuotes) n).mp hok
        simp [this] at hr
      cases hv : validateRow r n with
      | ok u => cases u; exact absurd hv hnotok
      | error m =>
        rw [hfi]
        refine ⟨by simp, ?_⟩
        rw [validateRowsAux_cons_err r rest n m hv]
        simp [rowErr?, hv]
    | false =>
      have hgood : rowValidB (r.map stripQuotes) = true := by simpa using hr
      have hok : validateRow r n = .ok () :=
        (validateCells_ok_iff (r.map stripQuotes) n).mpr hgood
      have hany' : rest.any (fun r => !rowValidB (r.map stripQuotes)) = true := by
        simpa [List.any_cons, hr] using hany
      obtain ⟨hlt, heq⟩ := ih (n + 1) hany'
      have hfi : (r :: rest).findIdx (fun r => !rowValidB (r.map stripQuotes)) =
          rest.findIdx (fun r => !rowValidB (r.map stripQuotes)) + 1 := by
        rw [List.findIdx_cons, hr]
        rfl
      rw [hfi]
      refine ⟨by simpa using hlt, ?_⟩
      rw [validateRowsAux_cons_ok r rest n hok, List.getD_cons_succ]
      have harith : n + (rest.findIdx (fun r => !rowValidB (r.map stripQuotes)) + 1) =
          n + 1 + rest.findIdx (fun r => !rowValidB (r.map stripQuotes)) := by omega
      rw [harith]
      exact heq

/-- **C9.** Per-row validation: a projected row passes `validateRow` exactly
when, after stripping the wrapping quotes, all seven columns are non-empty,
the Media URL is HTTPS without `data:image`/`blob:` indicators and the Link
is HTTPS; every `validateRow` failure message is `Row <idx>: <field message>`
with the 1-based row index and one of the seven field-specific bodies; and
when the projected table contains an invalid row (the count check having
passed), `generateCSVString` returns the first invalid row's `validateRow`
error, producing no CSV text. -/
theorem claim_C9 :
    (∀ (row : List String) (idx : Nat),
      validateRow row idx = Except.ok () ↔ rowValidB (row.map stripQuotes) = true) ∧
    (∀ (row : List String) (idx : Nat) (msg : String),
      validateRow row idx = Except.error msg →
      msg ∈ (fieldMsgBodies (getCell (row.map stripQuotes) 1)).map (rowMsg idx)) ∧
    (∀ (data : List CampaignResult) (rows : List (List String)),
      buildRows data = Except.ok rows → rows.length = data.length * 3 →
      rows.any (fun r => !rowValidB (r.map stripQuotes)) = true →
      rows.findIdx (fun r => !rowValidB (r.map stripQuotes)) < rows.length ∧
        generateCSVString data = CsvResult.err
          ((rowErr? (rows.getD (rows.findIdx (fun r => !rowValidB (r.map stripQuotes))) [])
            (rows.findIdx (fun r => !rowValidB (r.map stripQuotes)) + 1)).getD "")) := by
  refine ⟨?_, ?_, ?_⟩
  · intro row idx
    exact validateCells_ok_iff (row.map stripQuotes) idx
  · intro row idx msg h
    exact validateCells_error_msg (row.map stripQuotes) idx msg h
  · intro data rows hb hlen hany
    obtain ⟨hlt, heq⟩ := validateRowsAux_firstBad rows 1 hany
    refine ⟨hlt, ?_⟩
    rw [generateCSVString_ok_rows data rows hb, if_neg (by simp [hlen])]
    rw [heq]
    rw [Nat.add_comm 1 (rows.findIdx (fun r => !rowValidB (r.map stripQuotes)))]

/-- Three projected rows whose first row has an empty Description cell. -/
def c9WData : List CampaignResult :=
  [⟨"https://site.example", sampleAnalysis,
    [{ schedVar "T1" "https://img.example/1.png" with description := "" },
     schedVar "T2" "https://img.example/2.png",
     schedVar "T3" "https://img.example/3.png"]⟩]

set_option maxRecDepth 8000 in
/-- Applies the integration part of `claim_C9` to `c9WData`. -/
theorem claim_C9_witness :
    (specRows c9WData).findIdx (fun r => !rowValidB (r.map stripQuotes)) <
        (specRows c9WData).length ∧
      generateCSVString c9WData = CsvResult.err "Row 1: Description empty." := by
  have h := claim_C9.2.2 c9WData (specRows c9WData) (by rfl) (by decide) (by decide)
  exact ⟨h.1, h.2.trans (by decide)⟩
